import Mathlib

/-!
# Verification of the hedging-dashboard payoff engine

Shallow embedding of the `HedgingStrategy` React component's payoff
computation (`generatePayoffData`, `getBreakeven`, `maxLoss`, `maxGain`),
of the slider bounds that constrain the strategy parameters, and of the
holding-entry validation in `Portfolio.tsx`.  JavaScript numbers are
modelled as rationals (`ℚ`); where NaN propagation matters the model uses
`Option ℚ` with `none` standing for NaN.
-/

namespace HedgingDashboard

/-- JavaScript `Math.round`: round half toward positive infinity,
`Math.round x = ⌊x + 1/2⌋`. -/
def jsRound (x : ℚ) : ℤ := ⌊x + 1 / 2⌋

/-- The chart layer's two-decimal rounding `Math.round(payoff * 100) / 100`
applied to every stored payoff. -/
def round2 (x : ℚ) : ℚ := (jsRound (x * 100) : ℚ) / 100

/-- Per-price net payoff of `generatePayoffData` (the body of its `for` loop):
`payoff` starts at `0`, `stockGain = price - currentPrice`, and each strategy
branch overwrites `payoff` with its leg sum. -/
def payoffAt (strategy : String)
    (currentPrice putStrike callStrike putPremium callPremium price : ℚ) : ℚ :=
  let stockGain := price - currentPrice
  if strategy = "collar" then
    stockGain + (max (putStrike - price) 0 - putPremium)
      + (-(max (price - callStrike) 0) + callPremium)
  else if strategy = "protective_put" then
    stockGain + (max (putStrike - price) 0 - putPremium)
  else if strategy = "bear_put_spread" then
    (max (putStrike - price) 0 - putPremium)
      + (-(max (callStrike - price) 0) + callPremium)
  else 0

/-- The price grid of `generatePayoffData`:
`for (let price = 85; price <= 120; price += 1)`, i.e. 85, 86, …, 120. -/
def priceGrid : List ℚ := (List.range 36).map (fun i : ℕ => 85 + (i : ℚ))

/-- `generatePayoffData`: one `{price, payoff}` point per grid price, the
payoff rounded to two decimals. -/
def generatePayoffData (strategy : String)
    (currentPrice putStrike callStrike putPremium callPremium : ℚ) :
    List (ℚ × ℚ) :=
  priceGrid.map (fun price =>
    (price,
      round2 (payoffAt strategy currentPrice putStrike callStrike
        putPremium callPremium price)))

/-- `getBreakeven`: closed-form per-strategy breakeven with a fallback of the
current price. -/
def getBreakeven (strategy : String)
    (currentPrice putStrike putPremium callPremium : ℚ) : ℚ :=
  if strategy = "collar" then currentPrice + callPremium - putPremium
  else if strategy = "protective_put" then currentPrice + putPremium
  else if strategy = "bear_put_spread" then putStrike - putPremium + callPremium
  else currentPrice

/-- JS `Math.min(...xs)` over a spread of a non-empty array.  The component
always passes the 36-point payoff list, so the empty case (where JS yields
`Infinity`) is unreachable and totalized to `0`. -/
def mathMinSpread : List ℚ → ℚ
  | [] => 0
  | h :: t => t.foldl min h

/-- JS `Math.max(...xs)` over a spread of a non-empty array; empty case
unreachable, totalized to `0`. -/
def mathMaxSpread : List ℚ → ℚ
  | [] => 0
  | h :: t => t.foldl max h

/-- `maxLoss = Math.min(...payoffData.map(d => d.payoff))`. -/
def maxLoss (strategy : String)
    (currentPrice putStrike callStrike putPremium callPremium : ℚ) : ℚ :=
  mathMinSpread ((generatePayoffData strategy currentPrice putStrike callStrike
    putPremium callPremium).map Prod.snd)

/-- `maxGain = Math.max(...payoffData.map(d => d.payoff))`. -/
def maxGain (strategy : String)
    (currentPrice putStrike callStrike putPremium callPremium : ℚ) : ℚ :=
  mathMaxSpread ((generatePayoffData strategy currentPrice putStrike callStrike
    putPremium callPremium).map Prod.snd)

/-- The acceptance region the component's sliders enforce: the
`currentPrice` slider offers 50–150, the `putStrike` slider offers
50–(currentPrice − 5), and the call/short-put strike slider (rendered for
collar and bear_put_spread only) offers (putStrike + 5)–150 for
bear_put_spread and (currentPrice + 5)–150 for collar. -/
def strikesValid (strategy : String)
    (currentPrice putStrike callStrike : ℚ) : Prop :=
  (50 ≤ currentPrice ∧ currentPrice ≤ 150) ∧
  (50 ≤ putStrike ∧ putStrike ≤ currentPrice - 5) ∧
  (if strategy = "bear_put_spread" then
    putStrike + 5 ≤ callStrike ∧ callStrike ≤ 150
   else if strategy = "collar" then
    currentPrice + 5 ≤ callStrike ∧ callStrike ≤ 150
   else True)

instance (strategy : String) (currentPrice putStrike callStrike : ℚ) :
    Decidable (strikesValid strategy currentPrice putStrike callStrike) := by
  unfold strikesValid; infer_instance

/-- The bear_put_spread per-price payoff as the spec's words describe it:
the long put (premium paid, here `putPremium`) sits at the HIGHER of the two
strikes and the short put (premium received, here `callPremium`) at the
LOWER one.  Written from the spec sentence, to be compared with the
source's `payoffAt "bear_put_spread"`. -/
def specBearPayoffAt (putStrike callStrike putPremium callPremium price : ℚ) : ℚ :=
  (max (max putStrike callStrike - price) 0 - putPremium)
    + (-(max (min putStrike callStrike - price) 0) + callPremium)

/-- Modelled from the spec: `computePayoffSummary`'s breakeven search, which
is absent from the source (`getBreakeven` uses closed forms instead).  Walks
adjacent grid points; a point with payoff exactly 0 is the breakeven, a
strict sign change between neighbours is resolved by linear interpolation,
and a sequence with no sign change yields `none`. -/
def signChangeBreakeven : List (ℚ × ℚ) → Option ℚ
  | [] => none
  | [(p, y)] => if y = 0 then some p else none
  | (p₁, y₁) :: (p₂, y₂) :: rest =>
    if y₁ = 0 then some p₁
    else if y₁ * y₂ < 0 then some (p₁ + (p₂ - p₁) * (-y₁) / (y₂ - y₁))
    else signChangeBreakeven ((p₂, y₂) :: rest)

/-- A JavaScript number that may be NaN: `none` is NaN, `some q` a real
value.  The premium `Input` fields are raw strings run through `parseFloat`,
so a non-numeric entry reaches the payoff code as NaN. -/
def JSNum : Type := Option ℚ

/-- JS addition: NaN propagates. -/
def jadd : JSNum → JSNum → JSNum
  | some a, some b => some (a + b)
  | _, _ => none

/-- JS subtraction: NaN propagates. -/
def jsub : JSNum → JSNum → JSNum
  | some a, some b => some (a - b)
  | _, _ => none

/-- JS unary minus: NaN propagates. -/
def jneg : JSNum → JSNum
  | some a => some (-a)
  | none => none

/-- `Math.max` returns NaN when an argument is NaN. -/
def jmax : JSNum → JSNum → JSNum
  | some a, some b => some (max a b)
  | _, _ => none

/-- `Math.round(x * 100) / 100` on a possibly-NaN value: `Math.round NaN`
is NaN. -/
def jround2 : JSNum → JSNum
  | some x => some (round2 x)
  | none => none

/-- The loop body of `generatePayoffData` with the premium inputs kept as
raw `parseFloat` results (possibly NaN); strikes and prices come from
sliders and are always numeric. -/
def payoffAtJS (strategy : String) (currentPrice putStrike callStrike : ℚ)
    (putPremium callPremium : JSNum) (price : ℚ) : JSNum :=
  let stockGain : JSNum := some (price - currentPrice)
  if strategy = "collar" then
    jadd (jadd stockGain (jsub (some (max (putStrike - price) 0)) putPremium))
      (jadd (jneg (jmax (some (price - callStrike)) (some 0))) callPremium)
  else if strategy = "protective_put" then
    jadd stockGain (jsub (some (max (putStrike - price) 0)) putPremium)
  else if strategy = "bear_put_spread" then
    jadd (jsub (some (max (putStrike - price) 0)) putPremium)
      (jadd (jneg (jmax (some (callStrike - price)) (some 0))) callPremium)
  else some 0

/-- `generatePayoffData` with possibly-NaN premiums: the component runs it
unconditionally on every render, with no validation between `parseFloat`
and the loop. -/
def generatePayoffDataJS (strategy : String)
    (currentPrice putStrike callStrike : ℚ)
    (putPremium callPremium : JSNum) : List (ℚ × JSNum) :=
  priceGrid.map (fun price =>
    (price,
      jround2 (payoffAtJS strategy currentPrice putStrike callStrike
        putPremium callPremium price)))

/-- The request body `addHoldingByShares` builds for the portfolio service. -/
structure AddHoldingRequest where
  symbol : String
  quantity : ℚ
  deriving DecidableEq, Repr

/-- `addHoldingByShares` from `Portfolio.tsx`: an empty/blank symbol or a
non-positive quantity or price is rejected (early return, modelled as
`none`) before any request is built; otherwise the request carries the
trimmed, upper-cased symbol and the share count. -/
def addHoldingByShares (symbol : String) (quantity price : ℚ) :
    Option AddHoldingRequest :=
  if symbol.trim = "" then none
  else if quantity ≤ 0 ∨ price ≤ 0 then none
  else some ⟨symbol.trim.toUpper, quantity⟩

/-- Mean of a return series (0 for the empty series). -/
def listMean (xs : List ℚ) : ℚ := xs.sum / xs.length

/-- Sample variance with ddof = 1 (0 when fewer than two observations), as
§4.2/§4.3 of the spec prescribe for the risk engine's denominators. -/
def sampleVar (xs : List ℚ) : ℚ :=
  if xs.length ≤ 1 then 0
  else (xs.map (fun x => (x - listMean xs) ^ 2)).sum / ((xs.length : ℚ) - 1)

/-- Sample covariance with ddof = 1 over paired observations. -/
def sampleCov (xs ys : List ℚ) : ℚ :=
  if xs.length ≤ 1 then 0
  else ((xs.zip ys).map (fun q => (q.1 - listMean xs) * (q.2 - listMean ys))).sum
    / ((xs.length : ℚ) - 1)

/-- Modelled from the spec: the RiskMetricsEngine's Sharpe ratio, absent
from src/ (only the `risk_metrics` schema columns and UI copy mention it).
`(meanReturn − riskFreeRatePerPeriod) / volatilityPerPeriod; null when
volatility is 0`.  Per-period volatility is taken as an input (its value is
a square root, irrational in general); the zero-volatility guard is on that
input. -/
def computeSharpe (meanReturn riskFreePerPeriod volatilityPerPeriod : ℚ) :
    Option ℚ :=
  if volatilityPerPeriod = 0 then none
  else some ((meanReturn - riskFreePerPeriod) / volatilityPerPeriod)

/-- Modelled from the spec: the RiskMetricsEngine's beta, absent from src/.
`covariance(portfolioReturns, benchmarkReturns) / variance(benchmarkReturns)`,
an `UndefinedMetricError` reported as `none` when the benchmark variance is
0 or the benchmark series is absent. -/
def computeBeta (portfolioReturns : List ℚ) (benchmarkReturns : Option (List ℚ)) :
    Option ℚ :=
  match benchmarkReturns with
  | none => none
  | some bench =>
    if sampleVar bench = 0 then none
    else some (sampleCov portfolioReturns bench / sampleVar bench)

/-- One run's Sharpe/beta pair: each metric independently `none` when
undefined, so an undefined metric never fails the whole bundle. -/
structure MetricsBundle where
  sharpe : Option ℚ
  beta : Option ℚ
  deriving DecidableEq, Repr

/-- Modelled from the spec: the slice of `computeMetrics` the Sharpe/beta
claim is about.  Each metric is computed on its own; an
`UndefinedMetricError` on one leaves the other in place. -/
def computeMetrics (portfolioReturns : List ℚ)
    (benchmarkReturns : Option (List ℚ))
    (riskFreePerPeriod volatilityPerPeriod : ℚ) : MetricsBundle :=
  { sharpe := computeSharpe (listMean portfolioReturns) riskFreePerPeriod
      volatilityPerPeriod,
    beta := computeBeta portfolioReturns benchmarkReturns }

/-- The strike invariant as the claim's words state it: `putStrike <
underlyingPrice` for protective_put and collar, and for bear_put_spread the
long-put strike (the `putStrike` leg, whose premium field is labelled
"Premium for Long Put") strictly exceeding the short-put strike
(`callStrike`).  Written from the spec, to be compared with the bounds the
sliders actually enforce (`strikesValid`). -/
def specStrikeInvariant (strategy : String)
    (currentPrice putStrike callStrike : ℚ) : Prop :=
  if strategy = "bear_put_spread" then callStrike < putStrike
  else putStrike < currentPrice

-- Per-strategy unfolding lemmas for `payoffAt`.

theorem payoffAt_collar (cp ps cs pp cpr p : ℚ) :
    payoffAt "collar" cp ps cs pp cpr p =
      (p - cp) + (max (ps - p) 0 - pp) + (-(max (p - cs) 0) + cpr) := rfl

theorem payoffAt_protective_put (cp ps cs pp cpr p : ℚ) :
    payoffAt "protective_put" cp ps cs pp cpr p =
      (p - cp) + (max (ps - p) 0 - pp) := rfl

theorem payoffAt_bear_put_spread (cp ps cs pp cpr p : ℚ) :
    payoffAt "bear_put_spread" cp ps cs pp cpr p =
      (max (ps - p) 0 - pp) + (-(max (cs - p) 0) + cpr) := rfl

/-- Evaluating `round2` at an integer-valued rational: no rounding happens. -/
theorem round2_intCast (n : ℤ) : round2 (n : ℚ) = n := by
  have h : jsRound ((n : ℚ) * 100) = 100 * n := by
    rw [jsRound, Int.floor_eq_iff]
    push_cast
    constructor <;> linarith
  rw [round2, h]
  push_cast
  ring

/-- `round2` is monotone, so grid extrema survive the chart rounding. -/
theorem round2_mono {x y : ℚ} (h : x ≤ y) : round2 x ≤ round2 y := by
  have hf : jsRound (x * 100) ≤ jsRound (y * 100) :=
    Int.floor_mono (by linarith)
  have : (jsRound (x * 100) : ℚ) ≤ (jsRound (y * 100) : ℚ) := by
    exact_mod_cast hf
  rw [round2, round2]
  linarith

-- Facts about the grid and the JS min/max folds.

theorem mem_priceGrid_iff (p : ℚ) :
    p ∈ priceGrid ↔ ∃ i : ℕ, i < 36 ∧ p = 85 + i := by
  constructor
  · intro h
    have h' : p ∈ (List.range 36).map (fun i : ℕ => 85 + (i : ℚ)) := h
    obtain ⟨i, hi, hfi⟩ := List.exists_of_mem_map h'
    exact ⟨i, List.mem_range.mp hi, hfi.symm⟩
  · rintro ⟨i, hi, rfl⟩
    exact List.mem_map_of_mem (fun i : ℕ => 85 + (i : ℚ)) (List.mem_range.mpr hi)

theorem priceGrid_bounds {p : ℚ} (h : p ∈ priceGrid) : 85 ≤ p ∧ p ≤ 120 := by
  obtain ⟨i, hi, rfl⟩ := (mem_priceGrid_iff p).mp h
  have h35 : (i : ℚ) ≤ 35 := by
    exact_mod_cast Nat.le_of_lt_succ hi
  have h0 : (0 : ℚ) ≤ i := Nat.cast_nonneg i
  constructor <;> linarith

theorem foldl_min_le_init (t : List ℚ) (a : ℚ) : t.foldl min a ≤ a := by
  induction t generalizing a with
  | nil => exact le_refl a
  | cons b t ih =>
    calc (b :: t).foldl min a = t.foldl min (min a b) := rfl
    _ ≤ min a b := ih (min a b)
    _ ≤ a := min_le_left a b

theorem foldl_min_le_mem (t : List ℚ) (a : ℚ) :
    ∀ x ∈ t, t.foldl min a ≤ x := by
  induction t generalizing a with
  | nil => intro x hx; cases hx
  | cons b t ih =>
    intro x hx
    rcases List.mem_cons.mp hx with rfl | hx
    · calc (x :: t).foldl min a = t.foldl min (min a x) := rfl
      _ ≤ min a x := foldl_min_le_init t (min a x)
      _ ≤ x := min_le_right a x
    · exact ih (min a b) x hx

theorem foldl_min_mem (t : List ℚ) (a : ℚ) :
    t.foldl min a = a ∨ t.foldl min a ∈ t := by
  induction t generalizing a with
  | nil => exact Or.inl rfl
  | cons b t ih =>
    have hstep : (b :: t).foldl min a = t.foldl min (min a b) := rfl
    rcases ih (min a b) with h | h
    · rcases le_total a b with hab | hab
      · left; rw [hstep, h, min_eq_left hab]
      · right; rw [hstep, h, min_eq_right hab]; exact List.mem_cons_self b t
    · right
      rw [hstep]
      exact List.mem_cons_of_mem b h

theorem foldl_max_init_le (t : List ℚ) (a : ℚ) : a ≤ t.foldl max a := by
  induction t generalizing a with
  | nil => exact le_refl a
  | cons b t ih =>
    calc a ≤ max a b := le_max_left a b
    _ ≤ t.foldl max (max a b) := ih (max a b)
    _ = (b :: t).foldl max a := rfl

theorem foldl_max_mem_le (t : List ℚ) (a : ℚ) :
    ∀ x ∈ t, x ≤ t.foldl max a := by
  induction t generalizing a with
  | nil => intro x hx; cases hx
  | cons b t ih =>
    intro x hx
    rcases List.mem_cons.mp hx with rfl | hx
    · calc x ≤ max a x := le_max_right a x
      _ ≤ t.foldl max (max a x) := foldl_max_init_le t (max a x)
      _ = (x :: t).foldl max a := rfl
    · exact ih (max a b) x hx

theorem foldl_max_mem (t : List ℚ) (a : ℚ) :
    t.foldl max a = a ∨ t.foldl max a ∈ t := by
  induction t generalizing a with
  | nil => exact Or.inl rfl
  | cons b t ih =>
    have hstep : (b :: t).foldl max a = t.foldl max (max a b) := rfl
    rcases ih (max a b) with h | h
    · rcases le_total a b with hab | hab
      · right; rw [hstep, h, max_eq_right hab]; exact List.mem_cons_self b t
      · left; rw [hstep, h, max_eq_left hab]
    · right
      rw [hstep]
      exact List.mem_cons_of_mem b h

theorem mathMinSpread_mem {l : List ℚ} (h : l ≠ []) : mathMinSpread l ∈ l := by
  cases l with
  | nil => exact absurd rfl h
  | cons a t =>
    rcases foldl_min_mem t a with h' | h'
    · rw [mathMinSpread, h']; exact List.mem_cons_self a t
    · rw [mathMinSpread]; exact List.mem_cons_of_mem a h'

theorem mathMinSpread_le {l : List ℚ} : ∀ x ∈ l, mathMinSpread l ≤ x := by
  cases l with
  | nil => intro x hx; cases hx
  | cons a t =>
    intro x hx
    rcases List.mem_cons.mp hx with rfl | hx
    · rw [mathMinSpread]; exact foldl_min_le_init t x
    · rw [mathMinSpread]; exact foldl_min_le_mem t a x hx

theorem mathMaxSpread_mem {l : List ℚ} (h : l ≠ []) : mathMaxSpread l ∈ l := by
  cases l with
  | nil => exact absurd rfl h
  | cons a t =>
    rcases foldl_max_mem t a with h' | h'
    · rw [mathMaxSpread, h']; exact List.mem_cons_self a t
    · rw [mathMaxSpread]; exact List.mem_cons_of_mem a h'

theorem mathMaxSpread_le {l : List ℚ} : ∀ x ∈ l, x ≤ mathMaxSpread l := by
  cases l with
  | nil => intro x hx; cases hx
  | cons a t =>
    intro x hx
    rcases List.mem_cons.mp hx with rfl | hx
    · rw [mathMaxSpread]; exact foldl_max_init_le t x
    · rw [mathMaxSpread]; exact foldl_max_mem_le t a x hx

-- Facts about the generated curve.

theorem mem_generatePayoffData {s : String} {cp ps cs pp cpr : ℚ} {x : ℚ × ℚ}
    (hx : x ∈ generatePayoffData s cp ps cs pp cpr) :
    x.1 ∈ priceGrid ∧ x.2 = round2 (payoffAt s cp ps cs pp cpr x.1) := by
  have hx' : x ∈ priceGrid.map
      (fun price => (price, round2 (payoffAt s cp ps cs pp cpr price))) := hx
  obtain ⟨p, hp, hfi⟩ := List.exists_of_mem_map hx'
  rw [← hfi]
  exact ⟨hp, rfl⟩

theorem generatePayoffData_mem (s : String) (cp ps cs pp cpr : ℚ) {p : ℚ}
    (hp : p ∈ priceGrid) :
    (p, round2 (payoffAt s cp ps cs pp cpr p)) ∈
      generatePayoffData s cp ps cs pp cpr :=
  List.mem_map_of_mem
    (fun price : ℚ => (price, round2 (payoffAt s cp ps cs pp cpr price))) hp

theorem map_fst_generatePayoffData (s : String) (cp ps cs pp cpr : ℚ) :
    (generatePayoffData s cp ps cs pp cpr).map Prod.fst = priceGrid := by
  rw [generatePayoffData, List.map_map]
  exact List.map_id priceGrid

theorem generatePayoffData_length (s : String) (cp ps cs pp cpr : ℚ) :
    (generatePayoffData s cp ps cs pp cpr).length = 36 := by
  rw [generatePayoffData, List.length_map, priceGrid, List.length_map,
    List.length_range]

theorem generatePayoffData_ne_nil (s : String) (cp ps cs pp cpr : ℚ) :
    generatePayoffData s cp ps cs pp cpr ≠ [] := by
  intro h
  have := generatePayoffData_length s cp ps cs pp cpr
  rw [h] at this
  exact absurd this (by norm_num)

theorem mem_85_priceGrid : (85 : ℚ) ∈ priceGrid :=
  (mem_priceGrid_iff 85).mpr ⟨0, by norm_num, by norm_num⟩

theorem mem_93_priceGrid : (93 : ℚ) ∈ priceGrid :=
  (mem_priceGrid_iff 93).mpr ⟨8, by norm_num, by norm_num⟩

theorem mem_120_priceGrid : (120 : ℚ) ∈ priceGrid :=
  (mem_priceGrid_iff 120).mpr ⟨35, by norm_num, by norm_num⟩

theorem round2_neg_two : round2 (-2 : ℚ) = -2 := by
  have h := round2_intCast (-2)
  push_cast at h
  exact h

theorem round2_neg_five : round2 (-5 : ℚ) = -5 := by
  have h := round2_intCast (-5)
  push_cast at h
  exact h

theorem round2_zero : round2 (0 : ℚ) = 0 := by
  have h := round2_intCast 0
  push_cast at h
  exact h

theorem round2_ten : round2 (10 : ℚ) = 10 := by
  have h := round2_intCast 10
  push_cast at h
  exact h

-- Unfolding lemmas for `getBreakeven`.

theorem getBreakeven_collar (cp ps pp cpr : ℚ) :
    getBreakeven "collar" cp ps pp cpr = cp + cpr - pp := rfl

theorem getBreakeven_protective_put (cp ps pp cpr : ℚ) :
    getBreakeven "protective_put" cp ps pp cpr = cp + pp := rfl

theorem getBreakeven_bear_put_spread (cp ps pp cpr : ℚ) :
    getBreakeven "bear_put_spread" cp ps pp cpr = ps - pp + cpr := rfl

/-- C1, counterexample: at the slider-valid bear_put_spread input
`currentPrice = 100, putStrike = 90, callStrike = 95` (short-put strike 95
is the higher strike, as the slider's `min = putStrike + 5` forces) with
premiums 10/10, the generated payoff at grid price 93 is −2, while the
spec's leg sum with the long put at the higher strike gives +2: the claim's
strike-ordering clause fails on the code. -/
theorem C1_counterexample :
    strikesValid "bear_put_spread" 100 90 95 ∧
    ((93 : ℚ), (-2 : ℚ)) ∈ generatePayoffData "bear_put_spread" 100 90 95 10 10 ∧
    payoffAt "bear_put_spread" 100 90 95 10 10 93 = -2 ∧
    specBearPayoffAt 90 95 10 10 93 = 2 := by
  have hpay : payoffAt "bear_put_spread" 100 90 95 10 10 93 = -2 := by
    rw [payoffAt_bear_put_spread]
    rw [max_eq_right (by norm_num : (90 : ℚ) - 93 ≤ 0),
      max_eq_left (by norm_num : (0 : ℚ) ≤ 95 - 93)]
    norm_num
  refine ⟨?_, ?_, hpay, ?_⟩
  · rw [strikesValid, if_pos rfl]
    norm_num
  · have h := generatePayoffData_mem "bear_put_spread" 100 90 95 10 10
      mem_93_priceGrid
    rwa [hpay, round2_neg_two] at h
  · rw [specBearPayoffAt]
    rw [max_eq_right (by norm_num : (90 : ℚ) ≤ 95),
      min_eq_left (by norm_num : (90 : ℚ) ≤ 95)]
    rw [max_eq_left (by norm_num : (0 : ℚ) ≤ 95 - 93),
      max_eq_right (by norm_num : (90 : ℚ) - 93 ≤ 0)]
    norm_num

/-- C1, amended: every generated per-price payoff is the two-decimal
rounding of the code's leg sum — collar = stock + long put + short call and
protective_put = stock + long put exactly as the claim states, while
bear_put_spread is long put at `putStrike` plus short put at `callStrike`
with no stock term, where the UI's slider ordering makes the long put the
LOWER strike and the short put the HIGHER strike. -/
theorem C1_amended (cp ps cs pp cpr : ℚ) :
    (∀ x ∈ generatePayoffData "collar" cp ps cs pp cpr,
      x.2 = round2 ((x.1 - cp) + (max (ps - x.1) 0 - pp)
        + (-(max (x.1 - cs) 0) + cpr))) ∧
    (∀ x ∈ generatePayoffData "protective_put" cp ps cs pp cpr,
      x.2 = round2 ((x.1 - cp) + (max (ps - x.1) 0 - pp))) ∧
    (∀ x ∈ generatePayoffData "bear_put_spread" cp ps cs pp cpr,
      x.2 = round2 ((max (ps - x.1) 0 - pp) + (-(max (cs - x.1) 0) + cpr))) := by
  refine ⟨fun x hx => ?_, fun x hx => ?_, fun x hx => ?_⟩
  · rw [(mem_generatePayoffData hx).2, payoffAt_collar]
  · rw [(mem_generatePayoffData hx).2, payoffAt_protective_put]
  · rw [(mem_generatePayoffData hx).2, payoffAt_bear_put_spread]

/-- C6, counterexample: the evaluated price grid is the same fixed 85…120
list for spot 50 as for spot 100, and its first price 85 lies outside a
±30% band around a spot of 50 (whose upper edge is 65): the grid's bounds
are constants, not a function of the spot price. -/
theorem C6_counterexample :
    (generatePayoffData "collar" 50 45 60 10 10).map Prod.fst
      = (generatePayoffData "collar" 100 95 110 10 10).map Prod.fst ∧
    (85 : ℚ) ∈ (generatePayoffData "collar" 50 45 60 10 10).map Prod.fst ∧
    ¬ ((85 : ℚ) ≤ 50 * (130 / 100)) := by
  refine ⟨?_, ?_, by norm_num⟩
  · rw [map_fst_generatePayoffData, map_fst_generatePayoffData]
  · rw [map_fst_generatePayoffData]
    exact mem_85_priceGrid

/-- C6, amended: the grid of every generated payoff curve is the fixed list
85, 86, …, 120 (36 prices, step 1), independent of the spot price and of
every other parameter; it is not a percentage band around spot. -/
theorem C6_amended (s : String) (cp ps cs pp cpr : ℚ) :
    (generatePayoffData s cp ps cs pp cpr).map Prod.fst = priceGrid ∧
    (∀ p : ℚ, p ∈ priceGrid ↔ ∃ i : ℕ, i < 36 ∧ p = 85 + i) := by
  exact ⟨map_fst_generatePayoffData s cp ps cs pp cpr, mem_priceGrid_iff⟩

/-- C10: for a strategy value outside the three supported ones the payoff
loop's initial `payoff = 0` is never overwritten, so every grid point gets
payoff 0 (and no error is raised), and `getBreakeven` falls through to
returning the current stock price. -/
theorem C10 (s : String) (h1 : s ≠ "collar") (h2 : s ≠ "protective_put")
    (h3 : s ≠ "bear_put_spread") (cp ps cs pp cpr : ℚ) :
    generatePayoffData s cp ps cs pp cpr = priceGrid.map (fun p => (p, 0)) ∧
    getBreakeven s cp ps pp cpr = cp := by
  have hpay : ∀ p : ℚ, payoffAt s cp ps cs pp cpr p = 0 := by
    intro p
    rw [payoffAt, if_neg h1, if_neg h2, if_neg h3]
  constructor
  · rw [generatePayoffData]
    apply List.map_congr_left
    intro p _
    rw [hpay p, round2_zero]
  · rw [getBreakeven, if_neg h1, if_neg h2, if_neg h3]

/-- C10, witness: the unsupported strategy value `"straddle"` yields the
all-zero curve and a breakeven equal to the current price 100. -/
theorem C10_witness :
    generatePayoffData "straddle" 100 95 110 10 10
      = priceGrid.map (fun p => (p, 0)) ∧
    getBreakeven "straddle" 100 95 10 10 = 100 :=
  C10 "straddle" (by decide) (by decide) (by decide) 100 95 110 10 10

-- A payoff sequence that never reaches or crosses zero has no sign change.

theorem signChangeBreakeven_of_neg (l : List (ℚ × ℚ))
    (h : ∀ x ∈ l, x.2 < 0) : signChangeBreakeven l = none := by
  induction l with
  | nil => rfl
  | cons a t ih =>
    cases t with
    | nil =>
      obtain ⟨p, y⟩ := a
      have hy : y < 0 := h (p, y) (List.mem_singleton.mpr rfl)
      simp only [signChangeBreakeven]
      rw [if_neg (ne_of_lt hy)]
    | cons b r =>
      obtain ⟨p₁, y₁⟩ := a
      obtain ⟨p₂, y₂⟩ := b
      have hy₁ : y₁ < 0 := h (p₁, y₁) (List.mem_cons_self _ _)
      have hy₂ : y₂ < 0 :=
        h (p₂, y₂) (List.mem_cons_of_mem _ (List.mem_cons_self _ _))
      have hprod : ¬ (y₁ * y₂ < 0) :=
        not_lt.mpr (le_of_lt (mul_pos_of_neg_of_neg hy₁ hy₂))
      simp only [signChangeBreakeven]
      rw [if_neg (ne_of_lt hy₁), if_neg hprod]
      exact ih (fun x hx => h x (List.mem_cons_of_mem _ hx))

/-- C3, counterexample: for a protective put with spot 100, put strike 95
and put premium 50, every payoff on the grid is negative — there is no sign
change — yet `getBreakeven` returns 150 (spot + premium), not
undefined/null: breakeven is not derived from a sign-change search. -/
theorem C3_counterexample :
    signChangeBreakeven (generatePayoffData "protective_put" 100 95 110 50 10)
      = none ∧
    getBreakeven "protective_put" 100 95 50 10 = 150 := by
  constructor
  · apply signChangeBreakeven_of_neg
    intro x hx
    obtain ⟨hp, hval⟩ := mem_generatePayoffData hx
    obtain ⟨h85, h120⟩ := priceGrid_bounds hp
    rw [hval, payoffAt_protective_put]
    have hle : (x.1 - 100) + (max (95 - x.1) 0 - 50) ≤ -20 := by
      rcases le_total (95 - x.1) 0 with hm | hm
      · rw [max_eq_right hm]; linarith
      · rw [max_eq_left hm]; linarith
    have h20 : round2 (-20 : ℚ) = -20 := by
      have h := round2_intCast (-20)
      push_cast at h
      exact h
    calc round2 ((x.1 - 100) + (max (95 - x.1) 0 - 50))
        ≤ round2 (-20 : ℚ) := round2_mono hle
      _ = -20 := h20
      _ < 0 := by norm_num
  · rw [getBreakeven_protective_put]
    norm_num

/-- C3, amended: breakeven is computed from per-strategy closed forms —
collar: spot + callPremium − putPremium; protective_put: spot + putPremium;
bear_put_spread: putStrike − putPremium + callPremium — never from a grid
sign-change search and never reported as null; the protective_put closed
form is an exact zero of the payoff whenever putStrike ≤ spot + putPremium. -/
theorem C3_amended (cp ps cs pp cpr : ℚ) :
    getBreakeven "collar" cp ps pp cpr = cp + cpr - pp ∧
    getBreakeven "protective_put" cp ps pp cpr = cp + pp ∧
    getBreakeven "bear_put_spread" cp ps pp cpr = ps - pp + cpr ∧
    (ps ≤ cp + pp →
      payoffAt "protective_put" cp ps cs pp cpr
        (getBreakeven "protective_put" cp ps pp cpr) = 0) := by
  refine ⟨rfl, rfl, rfl, fun h => ?_⟩
  rw [getBreakeven_protective_put, payoffAt_protective_put,
    max_eq_right (by linarith : ps - (cp + pp) ≤ 0)]
  ring

/-- C4, counterexample: the slider bounds accept the bear_put_spread
configuration spot 100, long-put strike 90, short-put strike 95, but the
claim's invariant — the long-put strike strictly exceeding the short-put
strike — fails there: the sliders enforce the OPPOSITE ordering. -/
theorem C4_counterexample :
    strikesValid "bear_put_spread" 100 90 95 ∧
    ¬ specStrikeInvariant "bear_put_spread" 100 90 95 := by
  constructor
  · rw [strikesValid, if_pos rfl]
    norm_num
  · rw [specStrikeInvariant, if_pos rfl]
    norm_num

/-- C4, amended: every slider-accepted configuration satisfies
`putStrike < currentPrice` (the put-strike slider tops out at spot − 5, for
every strategy), and for bear_put_spread the SHORT-put strike (`callStrike`)
exceeds the long-put strike by at least the 5-unit spread width; this holds
at the slider level (out-of-range values are not offered) rather than by a
separate validation pass before simulation. -/
theorem C4_amended (s : String) (cp ps cs : ℚ)
    (h : strikesValid s cp ps cs) :
    ps < cp ∧ (s = "bear_put_spread" → ps + 5 ≤ cs ∧ ps < cs) := by
  obtain ⟨hcp, hps, hcond⟩ := h
  constructor
  · linarith [hps.2]
  · intro hs
    subst hs
    rw [if_pos rfl] at hcond
    exact ⟨hcond.1, by linarith [hcond.1]⟩

/-- C4, witness: the theorem applied at the accepted bear_put_spread
configuration (spot 100, strikes 90/95). -/
theorem C4_witness : (90 : ℚ) < 100 ∧ ((90 : ℚ) + 5 ≤ 95 ∧ (90 : ℚ) < 95) := by
  have h := C4_amended "bear_put_spread" 100 90 95
    (by rw [strikesValid, if_pos rfl]; norm_num)
  exact ⟨h.1, h.2 rfl⟩

/-- C5, counterexample: the slider-valid bear_put_spread configuration
spot 100, long-put strike 90, short-put strike 120, premiums 10/10 has
payoff −20 at `price = underlyingPrice`, not
−(premium paid) + (premium received) = 0: the at-entry identity fails for
bear_put_spread when the short-put strike exceeds spot. -/
theorem C5_counterexample :
    strikesValid "bear_put_spread" 100 90 120 ∧
    payoffAt "bear_put_spread" 100 90 120 10 10 100 = -20 ∧
    ((-20 : ℚ) ≠ -10 + 10) := by
  refine ⟨?_, ?_, by norm_num⟩
  · rw [strikesValid, if_pos rfl]
    norm_num
  · rw [payoffAt_bear_put_spread,
      max_eq_right (by norm_num : (90 : ℚ) - 100 ≤ 0),
      max_eq_left (by norm_num : (0 : ℚ) ≤ 120 - 100)]
    norm_num

/-- C5, amended: at `price = underlyingPrice` the payoff equals
−(premium paid) + (premium received) for protective_put whenever
putStrike ≤ spot, and for collar whenever putStrike ≤ spot ≤ callStrike —
both guaranteed by the sliders; for bear_put_spread it holds only when the
short-put strike is also at or below spot (`callStrike ≤ cp`), a condition
the sliders do not enforce. -/
theorem C5_amended (cp ps cs pp cpr : ℚ) :
    (ps ≤ cp → payoffAt "protective_put" cp ps cs pp cpr cp = -pp) ∧
    (ps ≤ cp → cp ≤ cs → payoffAt "collar" cp ps cs pp cpr cp = -pp + cpr) ∧
    (ps ≤ cp → cs ≤ cp →
      payoffAt "bear_put_spread" cp ps cs pp cpr cp = -pp + cpr) := by
  refine ⟨fun h1 => ?_, fun h1 h2 => ?_, fun h1 h2 => ?_⟩
  · rw [payoffAt_protective_put, max_eq_right (by linarith : ps - cp ≤ 0)]
    ring
  · rw [payoffAt_collar, max_eq_right (by linarith : ps - cp ≤ 0),
      max_eq_right (by linarith : cp - cs ≤ 0)]
    ring
  · rw [payoffAt_bear_put_spread, max_eq_right (by linarith : ps - cp ≤ 0),
      max_eq_right (by linarith : cs - cp ≤ 0)]
    ring

/-- C2, counterexample: for the default protective put (spot 100, put
strike 95, premium 10) the component reports max gain 10 — the payoff at
the grid's top price 120 — a finite number read off the truncated 85…120
grid, where the claim requires protective_put's max gain to be reported as
unbounded and never as a finite grid value. -/
theorem C2_counterexample : maxGain "protective_put" 100 95 110 10 10 = 10 := by
  have h10pay : payoffAt "protective_put" 100 95 110 10 10 120 = 10 := by
    rw [payoffAt_protective_put, max_eq_right (by norm_num : (95 : ℚ) - 120 ≤ 0)]
    norm_num
  have h10 : (10 : ℚ) ∈
      (generatePayoffData "protective_put" 100 95 110 10 10).map Prod.snd := by
    have hmem := generatePayoffData_mem "protective_put" 100 95 110 10 10
      mem_120_priceGrid
    rw [h10pay, round2_ten] at hmem
    exact List.mem_map_of_mem Prod.snd hmem
  have hub : ∀ y ∈ (generatePayoffData "protective_put" 100 95 110 10 10).map
      Prod.snd, y ≤ 10 := by
    intro y hy
    obtain ⟨x, hx, hfi⟩ := List.exists_of_mem_map hy
    obtain ⟨hp, hval⟩ := mem_generatePayoffData hx
    obtain ⟨h85, h120⟩ := priceGrid_bounds hp
    rw [← hfi, hval, payoffAt_protective_put]
    have hle : (x.1 - 100) + (max (95 - x.1) 0 - 10) ≤ 10 := by
      rcases le_total (95 - x.1) 0 with hm | hm
      · rw [max_eq_right hm]; linarith
      · rw [max_eq_left hm]; linarith
    calc round2 ((x.1 - 100) + (max (95 - x.1) 0 - 10))
        ≤ round2 (10 : ℚ) := round2_mono hle
      _ = 10 := round2_ten
  have hne : (generatePayoffData "protective_put" 100 95 110 10 10).map
      Prod.snd ≠ [] := by
    intro h
    exact generatePayoffData_ne_nil "protective_put" 100 95 110 10 10
      (List.map_eq_nil_iff.mp h)
  exact le_antisymm (hub _ (mathMaxSpread_mem hne)) (mathMaxSpread_le 10 h10)

/-- C2, amended: for every strategy (protective_put included), the reported
max loss and max gain are the empirical minimum and maximum of the rounded
payoffs over the fixed 85…120 grid — finite attained grid values, dependent
on the grid bounds, with no theoretical cap/floor computation and no
"unbounded" report for protective_put's upside. -/
theorem C2_amended (s : String) (cp ps cs pp cpr : ℚ) :
    maxLoss s cp ps cs pp cpr ∈
      (generatePayoffData s cp ps cs pp cpr).map Prod.snd ∧
    (∀ y ∈ (generatePayoffData s cp ps cs pp cpr).map Prod.snd,
      maxLoss s cp ps cs pp cpr ≤ y) ∧
    maxGain s cp ps cs pp cpr ∈
      (generatePayoffData s cp ps cs pp cpr).map Prod.snd ∧
    (∀ y ∈ (generatePayoffData s cp ps cs pp cpr).map Prod.snd,
      y ≤ maxGain s cp ps cs pp cpr) := by
  have hne : (generatePayoffData s cp ps cs pp cpr).map Prod.snd ≠ [] := by
    intro h
    exact generatePayoffData_ne_nil s cp ps cs pp cpr (List.map_eq_nil_iff.mp h)
  exact ⟨mathMinSpread_mem hne, fun y hy => mathMinSpread_le y hy,
    mathMaxSpread_mem hne, fun y hy => mathMaxSpread_le y hy⟩

-- NaN propagation facts for the `Option ℚ` model of JS numbers.

theorem jadd_none_left (x : JSNum) : jadd none x = none := by
  cases x <;> rfl

theorem jadd_none_right (x : JSNum) : jadd x none = none := by
  cases x <;> rfl

theorem jsub_none_right (x : JSNum) : jsub x none = none := by
  cases x <;> rfl

/-- C7, counterexample: with a non-numeric put-premium string (`parseFloat`
result NaN, modelled as `none`) the payoff generator still runs over the
whole 36-point grid and computes a NaN payoff at every point — here the
point at price 85 — instead of the input being rejected before the engine. -/
theorem C7_counterexample :
    (generatePayoffDataJS "collar" 100 95 110 none (some 10)).length = 36 ∧
    ((85 : ℚ), (none : JSNum)) ∈
      generatePayoffDataJS "collar" 100 95 110 none (some 10) := by
  constructor
  · rw [generatePayoffDataJS, List.length_map, priceGrid, List.length_map,
      List.length_range]
  · have h : ((85 : ℚ),
        jround2 (payoffAtJS "collar" 100 95 110 none (some 10) 85)) ∈
        generatePayoffDataJS "collar" 100 95 110 none (some 10) :=
      List.mem_map_of_mem
        (fun price : ℚ =>
          (price, jround2 (payoffAtJS "collar" 100 95 110 none (some 10) price)))
        mem_85_priceGrid
    exact h

/-- C7, amended: holding entry is validated — `addHoldingByShares` rejects a
non-positive quantity or price before building any request — but the
strategy premium strings are not: a NaN premium (non-numeric `parseFloat`
result) flows unchecked into the payoff computation, making every generated
payoff NaN for each of the three strategies. -/
theorem C7_amended (symbol : String) (quantity price : ℚ) (s : String)
    (cp ps cs : ℚ) (cpr : JSNum) :
    (quantity ≤ 0 ∨ price ≤ 0 → addHoldingByShares symbol quantity price = none) ∧
    (s = "collar" ∨ s = "protective_put" ∨ s = "bear_put_spread" →
      ∀ x ∈ generatePayoffDataJS s cp ps cs none cpr, x.2 = none) := by
  constructor
  · intro h
    rw [addHoldingByShares]
    split_ifs with h1
    · rfl
    · rfl
  · intro hs x hx
    have hx' : x ∈ priceGrid.map (fun price : ℚ =>
        (price, jround2 (payoffAtJS s cp ps cs none cpr price))) := hx
    obtain ⟨p, hp, hfi⟩ := List.exists_of_mem_map hx'
    rw [← hfi]
    rcases hs with rfl | rfl | rfl
    · show jround2 (payoffAtJS "collar" cp ps cs none cpr p) = none
      rw [payoffAtJS, if_pos rfl, jsub_none_right, jadd_none_right,
        jadd_none_left]
      rfl
    · show jround2 (payoffAtJS "protective_put" cp ps cs none cpr p) = none
      rw [payoffAtJS, if_neg (by decide : ("protective_put" : String) ≠ "collar"),
        if_pos rfl, jsub_none_right, jadd_none_right]
      rfl
    · show jround2 (payoffAtJS "bear_put_spread" cp ps cs none cpr p) = none
      rw [payoffAtJS,
        if_neg (by decide : ("bear_put_spread" : String) ≠ "collar"),
        if_neg (by decide : ("bear_put_spread" : String) ≠ "protective_put"),
        if_pos rfl, jsub_none_right, jadd_none_left]
      rfl

/-- C8: the Sharpe ratio is `none` (never 0, never NaN) exactly when the
per-period volatility is 0, beta is `none` when the benchmark variance is 0
or the benchmark series is absent, and each undefined metric is isolated —
with a degenerate benchmark the bundle still carries the Sharpe value, and
with nonzero volatility the bundle still carries beta. -/
theorem C8 (port bench : List ℚ) (rf vol : ℚ) :
    (vol = 0 → (computeMetrics port (some bench) rf vol).sharpe = none) ∧
    (sampleVar bench = 0 → (computeMetrics port (some bench) rf vol).beta = none) ∧
    (computeMetrics port none rf vol).beta = none ∧
    (vol ≠ 0 → (computeMetrics port (some bench) rf vol).sharpe
      = some ((listMean port - rf) / vol)) ∧
    (sampleVar bench ≠ 0 → (computeMetrics port (some bench) rf vol).beta
      = some (sampleCov port bench / sampleVar bench)) := by
  refine ⟨fun h => ?_, fun h => ?_, rfl, fun h => ?_, fun h => ?_⟩
  · show computeSharpe (listMean port) rf vol = none
    rw [computeSharpe, if_pos h]
  · show computeBeta port (some bench) = none
    simp only [computeBeta]
    rw [if_pos h]
  · show computeSharpe (listMean port) rf vol = some ((listMean port - rf) / vol)
    rw [computeSharpe, if_neg h]
  · show computeBeta port (some bench)
      = some (sampleCov port bench / sampleVar bench)
    simp only [computeBeta]
    rw [if_neg h]

-- The implemented bear_put_spread payoff is non-decreasing in price once
-- the short-put strike sits at or above the long-put strike.

theorem bearPayoff_mono (cp ps cs pp cpr : ℚ) (hcs : ps ≤ cs) {p q : ℚ}
    (hpq : p ≤ q) :
    payoffAt "bear_put_spread" cp ps cs pp cpr p ≤
      payoffAt "bear_put_spread" cp ps cs pp cpr q := by
  rw [payoffAt_bear_put_spread, payoffAt_bear_put_spread]
  simp only [max_def']
  split_ifs <;> linarith

/-- C9: with the slider-enforced ordering (short-put strike at least the
long-put strike plus 5), the generated bear_put_spread payoff is
monotonically non-decreasing across the grid: any two curve points with
`x.price ≤ y.price` satisfy `x.payoff ≤ y.payoff`. -/
theorem C9 (cp ps cs pp cpr : ℚ) (h : ps + 5 ≤ cs) :
    ∀ x ∈ generatePayoffData "bear_put_spread" cp ps cs pp cpr,
      ∀ y ∈ generatePayoffData "bear_put_spread" cp ps cs pp cpr,
        x.1 ≤ y.1 → x.2 ≤ y.2 := by
  intro x hx y hy hxy
  obtain ⟨hpx, hvx⟩ := mem_generatePayoffData hx
  obtain ⟨hpy, hvy⟩ := mem_generatePayoffData hy
  rw [hvx, hvy]
  exact round2_mono (bearPayoff_mono cp ps cs pp cpr (by linarith) hxy)

/-- C9, witness: on the valid configuration spot 100, strikes 90/95,
premiums 10/10, the curve point at price 85 (payoff −5) lies below the
point at price 120 (payoff 0). -/
theorem C9_witness : (-5 : ℚ) ≤ (0 : ℚ) := by
  have h85 : ((85 : ℚ), (-5 : ℚ)) ∈
      generatePayoffData "bear_put_spread" 100 90 95 10 10 := by
    have hpay : payoffAt "bear_put_spread" 100 90 95 10 10 85 = -5 := by
      rw [payoffAt_bear_put_spread,
        max_eq_left (by norm_num : (0 : ℚ) ≤ 90 - 85),
        max_eq_left (by norm_num : (0 : ℚ) ≤ 95 - 85)]
      norm_num
    have h := generatePayoffData_mem "bear_put_spread" 100 90 95 10 10
      mem_85_priceGrid
    rwa [hpay, round2_neg_five] at h
  have h120 : ((120 : ℚ), (0 : ℚ)) ∈
      generatePayoffData "bear_put_spread" 100 90 95 10 10 := by
    have hpay : payoffAt "bear_put_spread" 100 90 95 10 10 120 = 0 := by
      rw [payoffAt_bear_put_spread,
        max_eq_right (by norm_num : (90 : ℚ) - 120 ≤ 0),
        max_eq_right (by norm_num : (95 : ℚ) - 120 ≤ 0)]
      norm_num
    have h := generatePayoffData_mem "bear_put_spread" 100 90 95 10 10
      mem_120_priceGrid
    rwa [hpay, round2_zero] at h
  exact C9 100 90 95 10 10 (by norm_num) (85, -5) h85 (120, 0) h120 (by norm_num)

end HedgingDashboard
